import Mathlib

/-!
Verification of the TBM-TSP correlation visualizer's data-normalization and
statistics pipeline. The definitions below shallowly embed the two app
variants of the repository: `src/app.py` (chainage cleaning, range filtering,
trendline condition) and the enhanced app in `src/unnamed/part_000`
(corr_val defaulting, safe_text sanitizer, top-correlation ranking).
Numeric cell values are modelled as exact rationals; correlation
coefficients, which involve a square root, live in the reals.
-/

/-- A spreadsheet cell: missing (None/NaN), a number, or text. -/
inductive Value where
  | null : Value
  | num : ℚ → Value
  | str : String → Value
deriving DecidableEq

/-- Embeds `re.sub(r"[^0-9.]", "", s)` from `clean_chainage`
(src/app.py line 30): keep only decimal digits and periods. -/
def stripNonNumeric (s : String) : String :=
  ⟨s.data.filter (fun c => c.isDigit || c == '.')⟩

/-- Value of a digit string read in base 10. -/
def digitsVal (cs : List Char) : ℚ :=
  cs.foldl (fun n c => 10 * n + ((c.toNat - 48 : ℕ) : ℚ)) 0

/-- Models Python `float(s)` on a string made only of digits and periods --
the only shape that reaches it in `clean_chainage` after the regex strip.
Such a string parses iff it has at least one digit and at most one period
(so "", ".", "1.2.3" fail); "1.", ".5" parse as 1.0 and 0.5. -/
def pyFloat (s : String) : Option ℚ :=
  let cs := s.data
  if cs.all (fun c => c.isDigit || c == '.') && cs.any Char.isDigit
      && decide (cs.count '.' ≤ 1) then
    let intPart := cs.takeWhile (fun c => c != '.')
    let fracPart := (cs.dropWhile (fun c => c != '.')).drop 1
    some (digitsVal intPart + digitsVal fracPart / 10 ^ fracPart.length)
  else none

/-- Embeds `clean_chainage` (src/app.py lines 27-32): missing values map to
None, numeric values are kept as-is, any other value is stringified,
stripped to digits and periods, and parsed; parse failure maps to None. -/
def clean_chainage : Value → Option ℚ
  | .null => none
  | .num q => some q
  | .str s => pyFloat (stripNonNumeric s)

/-- Embeds src/app.py lines 34-36: apply `clean_chainage` to the chainage
cell, drop rows whose cleaned value is missing, sort ascending by the
cleaned value. Each working row is the chainage cell paired with the rest
of the row; `insertionSort` stands in for pandas `sort_values` (the claims
depend only on the output being an ascending-sorted permutation). -/
def normalizeRows (t : List (Value × List Value)) : List (ℚ × List Value) :=
  List.insertionSort (fun a b => a.1 ≤ b.1)
    (t.filterMap (fun r => (clean_chainage r.1).map (fun q => (q, r.2))))

/-- Embeds src/app.py lines 47-50 (and part_000 line 38): keep the rows whose
chainage value lies in the inclusive interval `[lo, hi]`. The source applies
the boolean mask directly; no bound-order validation exists. -/
def rangeFilter {α : Type} (t : List (ℚ × α)) (lo hi : ℚ) : List (ℚ × α) :=
  t.filter (fun r => decide (lo ≤ r.1) && decide (r.1 ≤ hi))

/-- Embeds src/app.py line 76: the trendline branch runs exactly when the
filtered table has more than 2 rows (`len(filtered) > 2`). -/
def trendlineAdded (t : List (ℚ × List Value)) : Bool :=
  decide (2 < t.length)

/-- A numeric cell read as a number; text cells and missing cells are NaN
from pandas' point of view. -/
def toNum : Value → Option ℚ
  | .num q => some q
  | _ => none

/-- The `i`-th non-chainage column of a working table, as pandas sees it:
one optional number per row. -/
def extractCol (t : List (ℚ × List Value)) (i : ℕ) : List (Option ℚ) :=
  t.map (fun r => (r.2.get? i).bind toNum)

/-- Pairwise-complete case handling of pandas `Series.corr`: the rows where
both series have a valid number. -/
def completePairs (xs ys : List (Option ℚ)) : List (ℚ × ℚ) :=
  (xs.zip ys).filterMap (fun p => p.1.bind (fun a => p.2.map (fun b => (a, b))))

/-- Number of valid (x, y) point pairs after null-filtering two columns. -/
def validPairs (xs ys : List (Option ℚ)) : ℕ :=
  (completePairs xs ys).length

/-- The end-to-end scenario table: chainage column [100,140,120,160] with one
other numeric column [5,7,6,9]. -/
def t8 : List (Value × List Value) :=
  [(Value.num 100, [Value.num 5]), (Value.num 140, [Value.num 7]),
   (Value.num 120, [Value.num 6]), (Value.num 160, [Value.num 9])]

/-- A table whose only other column has a missing x-value in the first row:
3 rows but only 2 complete (x, y) pairs. -/
def t5null : List (ℚ × List Value) :=
  [(1, [Value.null, Value.num 1]), (2, [Value.num 1, Value.num 2]),
   (3, [Value.num 2, Value.num 3])]

/-- A 3-row table in which both selected columns are fully populated. -/
def tW5 : List (ℚ × List Value) :=
  [(1, [Value.num 1, Value.num 1]), (2, [Value.num 2, Value.num 2]),
   (3, [Value.num 3, Value.num 3])]

/-- A two-row raw table whose chainage cells arrive out of order. -/
def tW7 : List (Value × List Value) := [(Value.num 2, []), (Value.num 1, [])]

/-- The substitution table of `safe_text` (part_000 lines 121-133), in source
order: en dash, em dash, degree, plus-minus, multiplication, bullet, curly
single and double quotes, arrow. -/
def replacements : List (Char × String) :=
  [('–', "-"), ('—', "-"), ('°', " deg"), ('±', "+/-"),
   ('×', "x"), ('•', "*"), ('’', "\x27"), ('‘', "\x27"),
   ('“', "\""), ('”', "\""), ('→', "->")]

/-- Python `str.replace` specialised to a single-character needle, the only
shape occurring in the substitution table, working on the character list of
the string. -/
def replaceChar (c : Char) (rep : String) (s : List Char) : List Char :=
  s.flatMap (fun d => if d = c then rep.data else [d])

/-- The latin-1 decoding stage of `safe_text`:
`encode("latin-1", "replace").decode("latin-1")` keeps every character at or
below U+00FF and turns anything above into the placeholder. -/
def latin1Replace (l : List Char) : List Char :=
  l.map (fun c => if c.toNat ≤ 255 then c else '?')

/-- The substitution loop of `safe_text` (part_000 lines 135-136), applied
to the character list of the input string in table order. -/
def subChars (s : String) : List Char :=
  replacements.foldl (fun acc kv => replaceChar kv.1 kv.2 acc) s.data

/-- Embeds `safe_text` (part_000 lines 118-137): apply the substitutions in
table order, then the latin-1 encode-with-replace round trip. -/
def safe_text (s : String) : String :=
  ⟨latin1Replace (subChars s)⟩

/-- A numeric column as pandas sees it: a name and one optional value per
row (none models NaN). -/
structure NCol where
  name : String
  vals : List (Option ℚ)

/-- Embeds pandas `Series.corr` (Pearson) with pairwise-complete case
handling, written with sums of deviations: the 1/(n-1) factors of the
covariance and the variances cancel in the ratio. none models NaN, produced
when fewer than 2 complete pairs exist or either variance is zero. -/
noncomputable def pearsonCorr (xs ys : List (Option ℚ)) : Option ℝ :=
  let ps := completePairs xs ys
  let mx : ℚ := (ps.map Prod.fst).sum / (ps.length : ℚ)
  let my : ℚ := (ps.map Prod.snd).sum / (ps.length : ℚ)
  let sxy : ℚ := (ps.map (fun p => (p.1 - mx) * (p.2 - my))).sum
  let sxx : ℚ := (ps.map (fun p => (p.1 - mx) ^ 2)).sum
  let syy : ℚ := (ps.map (fun p => (p.2 - my) ^ 2)).sum
  if ps.length < 2 ∨ sxx * syy = 0 then none
  else some ((sxy : ℝ) / Real.sqrt ((sxx : ℝ) * (syy : ℝ)))

/-- `data.corr(numeric_only=True).abs().unstack()` (part_000 line 154): one
entry per ordered pair of numeric columns, carrying the absolute Pearson
coefficient (none models NaN). -/
noncomputable def unstackedAbsCorr (cols : List NCol) :
    List (String × String × Option ℝ) :=
  cols.flatMap (fun a => cols.map (fun b =>
    (a.name, b.name, (pearsonCorr a.vals b.vals).map (fun v => |v|))))

/-- `.sort_values(ascending=False)` on the unstacked series: present values
sorted non-increasing, NaN entries last (the default na_position). -/
noncomputable def sortedAbsCorr (cols : List NCol) :
    List (String × String × Option ℝ) :=
  (List.insertionSort (fun e1 e2 => e2.2.2.getD 0 ≤ e1.2.2.getD 0)
      ((unstackedAbsCorr cols).filter (fun e => e.2.2.isSome)))
    ++ (unstackedAbsCorr cols).filter (fun e => e.2.2.isNone)

/-- The boolean mask `corr_matrix < 1` (part_000 line 155): a NaN entry
compares false and is removed together with the exact-1 entries. -/
noncomputable def ltOneMask (e : String × String × Option ℝ) : Bool :=
  match e.2.2 with
  | some v => decide (v < 1)
  | none => false

/-- The `dropna()` step after the mask: a no-op at that point (the mask
already removed every NaN), written as the unwrapping of the survivors. -/
def unwrapEntry (e : String × String × Option ℝ) : Option (String × String × ℝ) :=
  e.2.2.map (fun v => (e.1, e.2.1, v))

/-- The ranking of part_000 lines 154-157, with `head(5)` generalised to a
limit: mask with `ltOneMask`, drop NaN, keep the first `limit` entries. -/
noncomputable def topCorrelations (cols : List NCol) (limit : ℕ) :
    List (String × String × ℝ) :=
  (((sortedAbsCorr cols).filter ltOneMask).filterMap unwrapEntry).take limit

/-- The values of the named column (`data[name]`); the callers below only
use it under a membership guard. -/
def colVals (cols : List NCol) (n : String) : List (Option ℚ) :=
  ((cols.find? (fun c => c.name == n)).map NCol.vals).getD []

/-- Embeds part_000 line 46:
`corr_val = data[x_axis].corr(data[y_axis]) if x_axis in data and y_axis in
data else 0` -- when either selected axis column is missing the result is
the plain number 0, not an error. -/
noncomputable def enhancedCorrVal (cols : List NCol) (x y : String) : Option ℝ :=
  if (cols.any (fun c => c.name == x)) && (cols.any (fun c => c.name == y)) then
    pearsonCorr (colVals cols x) (colVals cols y)
  else some 0

/-- The structural (pipeline-fatal) errors of src/app.py: lines 22-24 and
54-56 show them via `st.error` followed by `st.stop`. -/
inductive AppErr where
  | missingChainage
  | insufficientNumeric
deriving DecidableEq

/-- Python `str.strip()` on the character list: drop leading and trailing
whitespace. -/
def trimChars (l : List Char) : List Char :=
  ((l.dropWhile Char.isWhitespace).reverse.dropWhile Char.isWhitespace).reverse

/-- `.str.strip().str.lower()` on a column name (src/app.py line 19); the
column names of interest are ASCII, so per-character lower-casing models
Python `str.lower()` faithfully here. -/
def normalizeName (s : String) : String :=
  ⟨(trimChars s.data).map Char.toLower⟩

/-- The `"chain" in c` substring test of src/app.py line 21. -/
def containsChain (s : String) : Bool :=
  s.data.tails.any (fun t => ("chain" : String).data.isPrefixOf t)

/-- A raw uploaded table: column names plus row-major cells. -/
structure RawTable where
  names : List String
  rows : List (List Value)

/-- True when a cell is not text: pandas assigns a numeric dtype to a
column exactly when no cell is a string (NaN keeps float64 numeric). -/
def numericCell : Value → Bool
  | .str _ => false
  | _ => true

/-- Embeds the structural skeleton of src/app.py lines 18-56: normalize the
column names, find the first one containing "chain" (error and stop when
absent), clean the chainage cells and drop unparsable rows, sort, filter to
the selected range, then list the numeric columns of the filtered table --
the chainage column itself is numeric by construction after cleaning, the
others exactly when no text cell remains -- and error and stop when fewer
than two remain. On success the numeric column names are returned. -/
def appPipeline (t : RawTable) (lo hi : ℚ) : Except AppErr (List String) :=
  let names := t.names.map normalizeName
  match names.findIdx? containsChain with
  | none => .error .missingChainage
  | some ci =>
    let keyed := t.rows.map (fun r => (r.getD ci Value.null, r))
    let filtered := rangeFilter (normalizeRows keyed) lo hi
    let numericNames := (names.enum.filter (fun p =>
        p.1 == ci || filtered.all (fun r => numericCell (r.2.getD p.1 Value.null)))).map
      Prod.snd
    if numericNames.length < 2 then .error .insufficientNumeric
    else .ok numericNames

/-- A table without any chainage-named column. -/
def tNoChain : RawTable := ⟨["alpha", "beta"], [[Value.num 1, Value.num 2]]⟩

/-- A table with a chainage column and one other numeric column. -/
def tChainTwo : RawTable :=
  ⟨["chainage", "beta"], [[Value.num 1, Value.num 2], [Value.num 2, Value.num 3]]⟩

/-- Column "a" of the duplication scenario: values 0, 1, 2. -/
def colA : NCol := ⟨"a", [some 0, some 1, some 2]⟩

/-- Column "b" of the duplication scenario: values 0, 2, 1, correlating
with "a" at exactly 1/2. -/
def colB : NCol := ⟨"b", [some 0, some 2, some 1]⟩

/-- Column "c": values 0, 2, 4, perfectly correlated with "a". -/
def colC : NCol := ⟨"c", [some 0, some 2, some 4]⟩

/-- C6: each chainage cell is cleaned as specified -- missing excluded,
numeric kept unchanged, text stripped to digits and periods then parsed --
and the normalizer's output is a permutation of exactly the rows whose
cleaned value exists (excluded rows are dropped whole). -/
theorem clean_chainage_drop_spec :
    clean_chainage Value.null = none
  ∧ (∀ q : ℚ, clean_chainage (Value.num q) = some q)
  ∧ (∀ s : String, clean_chainage (Value.str s) = pyFloat (stripNonNumeric s))
  ∧ (∀ t : List (Value × List Value),
      (normalizeRows t).Perm
        (t.filterMap (fun r => (clean_chainage r.1).map (fun q => (q, r.2))))) := by
  refine ⟨rfl, fun q => rfl, fun s => rfl, fun t => ?_⟩
  unfold normalizeRows
  exact List.perm_insertionSort _ _

/-- C7: in the normalized table every adjacent pair of rows has
non-decreasing chainage value. -/
theorem normalizeRows_sorted_adjacent (t : List (Value × List Value)) (i : ℕ)
    (h : i + 1 < (normalizeRows t).length) :
    ((normalizeRows t).getD i ((0 : ℚ), ([] : List Value))).1
      ≤ ((normalizeRows t).getD (i + 1) ((0 : ℚ), ([] : List Value))).1 := by
  have hi : i < (normalizeRows t).length := Nat.lt_of_succ_lt h
  rw [List.getD_eq_get _ _ hi, List.getD_eq_get _ _ h]
  haveI : IsTotal (ℚ × List Value) (fun a b => a.1 ≤ b.1) :=
    ⟨fun a b => le_total a.1 b.1⟩
  haveI : IsTrans (ℚ × List Value) (fun a b => a.1 ≤ b.1) :=
    ⟨fun _ _ _ hab hbc => le_trans hab hbc⟩
  have hs : List.Sorted (fun a b : ℚ × List Value => a.1 ≤ b.1) (normalizeRows t) := by
    unfold normalizeRows
    exact List.sorted_insertionSort _ _
  exact hs.rel_get_of_lt (Fin.mk_lt_mk.mpr (Nat.lt_succ_self i))

theorem normalizeRows_sorted_adjacent_witness :
    0 + 1 < (normalizeRows tW7).length
  ∧ ((normalizeRows tW7).getD 0 ((0 : ℚ), ([] : List Value))).1
      ≤ ((normalizeRows tW7).getD (0 + 1) ((0 : ℚ), ([] : List Value))).1 :=
  ⟨by decide, normalizeRows_sorted_adjacent tW7 0 (by decide)⟩

/-- C8: normalizing the scenario table sorts chainage to [100,120,140,160]
with the other column reordered consistently to [5,6,7,9], and filtering to
[110,150] keeps exactly the rows at 120 and 140. -/
theorem end_to_end_scenario :
    (normalizeRows t8).map Prod.fst = [100, 120, 140, 160]
  ∧ (normalizeRows t8).map Prod.snd
      = [[Value.num 5], [Value.num 6], [Value.num 7], [Value.num 9]]
  ∧ rangeFilter (normalizeRows t8) 110 150
      = [(120, [Value.num 6]), (140, [Value.num 7])] := by
  decide

/-- C4 counterexample: with inverted bounds (low 5 > high 1) the source
filters anyway and hands back a (here empty) table; no InvalidRange signal
exists anywhere in the filtering code. -/
theorem rangeFilter_inverted_returns_table :
    rangeFilter [((2 : ℚ), [Value.num 3])] 5 1 = [] := by
  decide

/-- C4 amended: the filter retains exactly the rows with
lowBound ≤ value ≤ highBound for every pair of bounds, and consequently
returns the empty table (not an error) whenever lowBound > highBound. -/
theorem rangeFilter_retention :
    (∀ (t : List (ℚ × List Value)) (lo hi : ℚ) (r : ℚ × List Value),
        r ∈ rangeFilter t lo hi ↔ r ∈ t ∧ lo ≤ r.1 ∧ r.1 ≤ hi)
  ∧ (∀ (t : List (ℚ × List Value)) (lo hi : ℚ), hi < lo → rangeFilter t lo hi = []) := by
  constructor
  · intro t lo hi r
    simp [rangeFilter, List.mem_filter, and_assoc]
  · intro t lo hi hlt
    rw [rangeFilter, List.filter_eq_nil_iff]
    intro a _
    simp only [Bool.and_eq_true, decide_eq_true_eq, not_and]
    intro h1 h2
    linarith

theorem rangeFilter_retention_witness :
    (1 : ℚ) < 5 ∧ rangeFilter [((3 : ℚ), [Value.num 7])] 5 1 = [] :=
  ⟨by norm_num, rangeFilter_retention.2 [((3 : ℚ), [Value.num 7])] 5 1 (by norm_num)⟩

/-- C5 counterexample: a 3-row filtered table with only 2 complete (x, y)
pairs still enters the trendline branch, because the source tests
`len(filtered) > 2`, not the number of null-filtered pairs. -/
theorem trendline_with_two_valid_pairs :
    trendlineAdded t5null = true
  ∧ validPairs (extractCol t5null 0) (extractCol t5null 1) < 3 := by
  decide

/-- C5 amended: the trendline is produced exactly when the filtered table
has more than 2 rows; having at least 3 valid pairs is sufficient (pairs
never outnumber rows) but not necessary for the branch to run. -/
theorem trendline_rowcount_threshold :
    (∀ t : List (ℚ × List Value), trendlineAdded t = true ↔ 2 < t.length)
  ∧ (∀ (t : List (ℚ × List Value)) (i j : ℕ),
      3 ≤ validPairs (extractCol t i) (extractCol t j) → trendlineAdded t = true) := by
  constructor
  · intro t
    simp [trendlineAdded]
  · intro t i j h3
    have hle : validPairs (extractCol t i) (extractCol t j) ≤ t.length := by
      rw [validPairs, completePairs]
      calc (((extractCol t i).zip (extractCol t j)).filterMap _).length
          ≤ ((extractCol t i).zip (extractCol t j)).length := List.length_filterMap_le _ _
        _ ≤ (extractCol t i).length := by
            rw [List.length_zip]; exact Nat.min_le_left _ _
        _ = t.length := by rw [extractCol, List.length_map]
    simp only [trendlineAdded, decide_eq_true_eq]
    omega

theorem trendline_rowcount_threshold_witness :
    3 ≤ validPairs (extractCol tW5 0) (extractCol tW5 1) ∧ trendlineAdded tW5 = true :=
  ⟨by decide, trendline_rowcount_threshold.2 tW5 0 1 (by decide)⟩

/-- C10: the cleaning function is total over all cell shapes -- it yields a
number or the excluded marker, including on strings that strip to something
unparsable -- and parses stripped decimals exactly. -/
theorem clean_chainage_total :
    (∀ v : Value, clean_chainage v = none ∨ ∃ q, clean_chainage v = some q)
  ∧ clean_chainage (Value.str ("1.2.3")) = none
  ∧ clean_chainage (Value.str ("")) = none
  ∧ clean_chainage (Value.str ("abc")) = none
  ∧ clean_chainage (Value.str ("12.5 m")) = some (25 / 2) := by
  refine ⟨fun v => ?_, by decide, by decide, by decide, ?_⟩
  · cases h : clean_chainage v with
    | none => exact Or.inl rfl
    | some q => exact Or.inr ⟨q, rfl⟩
  · show pyFloat (stripNonNumeric ("12.5 m")) = some (25 / 2)
    have h : stripNonNumeric ("12.5 m") = ("12.5" : String) := by decide
    rw [h, pyFloat]
    have hcond : (("12.5" : String).data.all (fun c => c.isDigit || c == '.')
        && ("12.5" : String).data.any Char.isDigit
        && decide (("12.5" : String).data.count '.' ≤ 1)) = true := by decide
    simp only [hcond, if_true]
    have h1 : ("12.5" : String).data.takeWhile (fun c => c != '.') = ['1', '2'] := by
      decide
    have h2 : (("12.5" : String).data.dropWhile (fun c => c != '.')).drop 1 = ['5'] := by
      decide
    rw [h1, h2]
    norm_num [digitsVal, show (Char.toNat '1' - 48 : ℕ) = 1 from by decide,
      show (Char.toNat '2' - 48 : ℕ) = 2 from by decide,
      show (Char.toNat '5' - 48 : ℕ) = 5 from by decide]

/-- C2 counterexample: the section sign U+00A7 is not in the substitution
table and is a legal latin-1 character, so `safe_text` passes it through
unchanged and the output still contains a non-ASCII character. -/
theorem safe_text_nonascii_survives :
    safe_text ("§") = ("§")
  ∧ ((safe_text ("§")).data.all (fun c => decide (c.toNat ≤ 127))) = false := by
  decide

lemma safeText_plusMinus : safe_text ("±") = "+/-" := by decide

lemma safeText_enDash : safe_text ("–") = "-" := by decide

lemma safeText_arrow : safe_text ("→") = "->" := by decide

lemma safeText_macronA : safe_text ("aĀb") = "a?b" := by decide

attribute [irreducible] subChars

lemma latin1Replace_le255 : ∀ l : List Char,
    List.Forall (fun c => c.toNat ≤ 255) (latin1Replace l)
  | [] => trivial
  | c :: cs => by
    show List.Forall _ (List.map _ (c :: cs))
    rw [List.map_cons, List.forall_cons]
    refine ⟨?_, latin1Replace_le255 cs⟩
    by_cases h : c.toNat ≤ 255
    · rw [if_pos h]
      exact h
    · rw [if_neg h]
      decide

lemma safeText_le255 (s : String) :
    List.Forall (fun c => c.toNat ≤ 255) (safe_text s).data :=
  latin1Replace_le255 (subChars s)

/-- C2 amended: the sanitizer maps the listed typographic characters to
ASCII equivalents and replaces characters above U+00FF with the placeholder,
so the output is always pure latin-1 (every character at most U+00FF) -- but
unlisted characters in U+0080..U+00FF survive, so ASCII is not guaranteed. -/
theorem safe_text_latin1_only :
    (∀ s : String, List.Forall (fun c => c.toNat ≤ 255) (safe_text s).data)
  ∧ safe_text ("±") = "+/-"
  ∧ safe_text ("–") = "-"
  ∧ safe_text ("→") = "->"
  ∧ safe_text ("aĀb") = "a?b" :=
  ⟨safeText_le255, safeText_plusMinus, safeText_enDash, safeText_arrow, safeText_macronA⟩

lemma sqrt_four : Real.sqrt 4 = 2 := by
  rw [show (4 : ℝ) = 2 ^ 2 by norm_num, Real.sqrt_sq (by norm_num : (0 : ℝ) ≤ 2)]

lemma sqrt_sixteen : Real.sqrt 16 = 4 := by
  rw [show (16 : ℝ) = 4 ^ 2 by norm_num, Real.sqrt_sq (by norm_num : (0 : ℝ) ≤ 4)]

lemma sqrt_sixtyfour : Real.sqrt 64 = 8 := by
  rw [show (64 : ℝ) = 8 ^ 2 by norm_num, Real.sqrt_sq (by norm_num : (0 : ℝ) ≤ 8)]

lemma pearson_aa :
    pearsonCorr [some 0, some 1, some 2] [some 0, some 1, some 2] = some 1 := by
  have hc : completePairs [some 0, some 1, some 2] [some 0, some 1, some 2]
      = [(0, 0), (1, 1), (2, 2)] := by decide
  simp only [pearsonCorr, hc]
  norm_num [sqrt_four]

lemma pearson_ab :
    pearsonCorr [some 0, some 1, some 2] [some 0, some 2, some 1] = some (1 / 2) := by
  have hc : completePairs [some 0, some 1, some 2] [some 0, some 2, some 1]
      = [(0, 0), (1, 2), (2, 1)] := by decide
  simp only [pearsonCorr, hc]
  norm_num [sqrt_four]

lemma pearson_ba :
    pearsonCorr [some 0, some 2, some 1] [some 0, some 1, some 2] = some (1 / 2) := by
  have hc : completePairs [some 0, some 2, some 1] [some 0, some 1, some 2]
      = [(0, 0), (2, 1), (1, 2)] := by decide
  simp only [pearsonCorr, hc]
  norm_num [sqrt_four]

lemma pearson_bb :
    pearsonCorr [some 0, some 2, some 1] [some 0, some 2, some 1] = some 1 := by
  have hc : completePairs [some 0, some 2, some 1] [some 0, some 2, some 1]
      = [(0, 0), (2, 2), (1, 1)] := by decide
  simp only [pearsonCorr, hc]
  norm_num [sqrt_four]

lemma pearson_ac :
    pearsonCorr [some 0, some 1, some 2] [some 0, some 2, some 4] = some 1 := by
  have hc : completePairs [some 0, some 1, some 2] [some 0, some 2, some 4]
      = [(0, 0), (1, 2), (2, 4)] := by decide
  simp only [pearsonCorr, hc]
  norm_num [sqrt_sixteen]

lemma pearson_ca :
    pearsonCorr [some 0, some 2, some 4] [some 0, some 1, some 2] = some 1 := by
  have hc : completePairs [some 0, some 2, some 4] [some 0, some 1, some 2]
      = [(0, 0), (2, 1), (4, 2)] := by decide
  simp only [pearsonCorr, hc]
  norm_num [sqrt_sixteen]

lemma pearson_cc :
    pearsonCorr [some 0, some 2, some 4] [some 0, some 2, some 4] = some 1 := by
  have hc : completePairs [some 0, some 2, some 4] [some 0, some 2, some 4]
      = [(0, 0), (2, 2), (4, 4)] := by decide
  simp only [pearsonCorr, hc]
  norm_num [sqrt_sixtyfour]

lemma ltOneMask_some (a b : String) (v : ℝ) :
    ltOneMask (a, b, some v) = decide (v < 1) := rfl

lemma ltOneMask_none (a b : String) : ltOneMask (a, b, none) = false := rfl

lemma unwrapEntry_some (a b : String) (v : ℝ) :
    unwrapEntry (a, b, some v) = some (a, b, v) := rfl

lemma sortedAbsCorr_perm (cols : List NCol) :
    (sortedAbsCorr cols).Perm (unstackedAbsCorr cols) := by
  rw [sortedAbsCorr]
  refine ((List.perm_insertionSort _ _).append_right _).trans ?_
  have hn : (unstackedAbsCorr cols).filter (fun e => e.2.2.isNone)
      = (unstackedAbsCorr cols).filter (fun e => !(e.2.2.isSome)) :=
    List.filter_congr (fun x _ => by cases hx : x.2.2 <;> rfl)
  rw [hn]
  exact List.filter_append_perm _ _

lemma topCorrelations_perm (cols : List NCol) (limit : ℕ)
    (h : (((unstackedAbsCorr cols).filter ltOneMask).filterMap unwrapEntry).length ≤ limit) :
    (topCorrelations cols limit).Perm
      (((unstackedAbsCorr cols).filter ltOneMask).filterMap unwrapEntry) := by
  rw [topCorrelations]
  have hp : (((sortedAbsCorr cols).filter ltOneMask).filterMap unwrapEntry).Perm
      (((unstackedAbsCorr cols).filter ltOneMask).filterMap unwrapEntry) :=
    List.Perm.filterMap unwrapEntry (List.Perm.filter ltOneMask (sortedAbsCorr_perm cols))
  rw [List.take_of_length_le (by rw [hp.length_eq]; exact h)]
  exact hp

lemma unstacked_ab : unstackedAbsCorr [colA, colB] =
    [("a", "a", some (1 : ℝ)), ("a", "b", some ((1 : ℝ) / 2)),
     ("b", "a", some ((1 : ℝ) / 2)), ("b", "b", some (1 : ℝ))] := by
  have habs2 : |(1 : ℝ) / 2| = 1 / 2 := abs_of_nonneg (by norm_num)
  simp only [unstackedAbsCorr, colA, colB, List.flatMap_cons, List.flatMap_nil,
    List.map_cons, List.map_nil, List.append_nil, List.cons_append, List.nil_append,
    pearson_aa, pearson_ab, pearson_ba, pearson_bb, Option.map_some', abs_one, habs2]

lemma unstacked_ac : unstackedAbsCorr [colA, colC] =
    [("a", "a", some (1 : ℝ)), ("a", "c", some (1 : ℝ)),
     ("c", "a", some (1 : ℝ)), ("c", "c", some (1 : ℝ))] := by
  simp only [unstackedAbsCorr, colA, colC, List.flatMap_cons, List.flatMap_nil,
    List.map_cons, List.map_nil, List.append_nil, List.cons_append, List.nil_append,
    pearson_aa, pearson_ac, pearson_ca, pearson_cc, Option.map_some', abs_one]

lemma flt_ab : (((unstackedAbsCorr [colA, colB]).filter ltOneMask).filterMap unwrapEntry)
    = [("a", "b", (1 : ℝ) / 2), ("b", "a", (1 : ℝ) / 2)] := by
  have h11 : (decide ((1 : ℝ) < 1)) = false := decide_eq_false (by norm_num)
  have h12 : (decide ((1 : ℝ) / 2 < 1)) = true := decide_eq_true (by norm_num)
  rw [unstacked_ab]
  simp only [List.filter_cons, List.filter_nil, ltOneMask_some, h11, h12]
  norm_num
  simp only [List.filterMap_cons, List.filterMap_nil, unwrapEntry_some]

lemma flt_ac : (((unstackedAbsCorr [colA, colC]).filter ltOneMask).filterMap unwrapEntry)
    = [] := by
  have h11 : (decide ((1 : ℝ) < 1)) = false := decide_eq_false (by norm_num)
  rw [unstacked_ac]
  simp only [List.filter_cons, List.filter_nil, ltOneMask_some, h11]
  norm_num

theorem topCorrelations_excludes_perfect :
    (∀ (cols : List NCol) (limit : ℕ),
        List.Forall (fun e => e.2.2 < 1) (topCorrelations cols limit))
  ∧ topCorrelations [colA, colC] 5 = [] := by
  constructor
  · intro cols limit
    rw [List.forall_iff_forall_mem]
    intro e he
    rw [topCorrelations] at he
    have h1 := List.mem_of_mem_take he
    obtain ⟨e0, he0, hf⟩ := List.mem_filterMap.mp h1
    obtain ⟨a, b, ov⟩ := e0
    have hm := (List.mem_filter.mp he0).2
    cases ov with
    | none =>
      rw [ltOneMask_none] at hm
      exact absurd hm Bool.false_ne_true
    | some v =>
      rw [ltOneMask_some] at hm
      rw [unwrapEntry_some] at hf
      obtain rfl := (Option.some_inj.mp hf).symm
      exact of_decide_eq_true hm
  · have hperm := topCorrelations_perm [colA, colC] 5 (by rw [flt_ac]; norm_num)
    rw [flt_ac] at hperm
    exact hperm.eq_nil

theorem corr_matrix_reports_pair_twice :
    ("a", "b", (1 : ℝ) / 2) ∈ topCorrelations [colA, colB] 5
  ∧ ("b", "a", (1 : ℝ) / 2) ∈ topCorrelations [colA, colB] 5 := by
  have hperm := topCorrelations_perm [colA, colB] 5 (by rw [flt_ab]; norm_num)
  rw [flt_ab] at hperm
  exact ⟨hperm.mem_iff.mpr (by simp), hperm.mem_iff.mpr (by simp)⟩

theorem corr_val_defaults_to_zero :
    enhancedCorrVal [⟨"a", [some 0, some 1]⟩] "a" "b" = some 0 := rfl

theorem structural_errors_policy :
    (∀ (t : RawTable) (lo hi : ℚ),
        (t.names.map normalizeName).findIdx? containsChain = none →
        appPipeline t lo hi = .error .missingChainage)
  ∧ (∀ (t : RawTable) (lo hi : ℚ) (ns : List String),
        appPipeline t lo hi = .ok ns → 2 ≤ ns.length)
  ∧ enhancedCorrVal [⟨"a", [some 0, some 1]⟩] "a" "b" = some 0 := by
  refine ⟨?_, ?_, rfl⟩
  · intro t lo hi h
    simp only [appPipeline, h]
  · intro t lo hi ns h
    simp only [appPipeline] at h
    split at h
    · exact absurd h (by simp)
    · split at h
      · exact absurd h (by simp)
      · rename_i hlen
        rw [Except.ok.injEq] at h
        subst h
        omega

theorem structural_errors_policy_witness :
    appPipeline tNoChain 0 10 = .error .missingChainage
  ∧ 2 ≤ (["chainage", "beta"] : List String).length :=
  ⟨structural_errors_policy.1 tNoChain 0 10 (by decide),
   structural_errors_policy.2.1 tChainTwo 0 10 ["chainage", "beta"] rfl⟩
